import Mathlib

/-!
Shallow embedding of the Sleeper-Waiver-Wizard recommendation core:
the fantasy-point calculator and performance aggregator
(`src/player_scorer.py`), the roster-need analyzer
(`src/league_analyzer.py`), the recommendation ranker
(`src/waiver_recommender.py`) and the scoring-settings resolver
(`src/scoring_manager.py`).

Numbers are modelled exactly: rationals for every quantity the source
computes with field arithmetic, reals only where the source takes a
square root (`np.std`).  Python `round(x, 2)` is modelled as exact
half-up rounding to two decimals; no claim below depends on the
tie-breaking mode of float rounding.
-/

namespace Waiver

/-- `round(x, 2)` of the source on exact rationals. -/
def round2 (q : ℚ) : ℚ := ((round (q * 100) : ℤ) : ℚ) / 100

/-- `round(x, 2)` applied to a real-valued quantity. -/
noncomputable def round2R (x : ℝ) : ℝ := ((round (x * 100) : ℤ) : ℝ) / 100

/-- `np.mean` (the branches of the source only apply it to non-empty lists). -/
def npMean (l : List ℚ) : ℚ := l.sum / l.length

/-- Population variance, the square of `np.std(l)`. -/
def npVar (l : List ℚ) : ℚ := npMean (l.map (fun x => (x - npMean l) ^ 2))

/-- `np.std` (population standard deviation, `ddof = 0`). -/
noncomputable def npStd (l : List ℚ) : ℝ := Real.sqrt ((npVar l : ℚ) : ℝ)

/-- Python `dict` lookup on an association list (`d[k]` / `k in d`). -/
def dictGet {β : Type} : List (String × β) → String → Option β
  | [], _ => none
  | p :: l, k => if p.1 = k then some p.2 else dictGet l k

/-- The slope returned by `np.polyfit(x, y, 1)` for `x = 0, …, n-1`:
the closed form of the ordinary least-squares line fit that `polyfit`
computes numerically. -/
def olsSlope (l : List ℚ) : ℚ :=
  let n : ℚ := l.length
  let xs : List ℚ := (List.range l.length).map (fun i => (i : ℚ))
  let sx := xs.sum
  let sy := l.sum
  let sxy := ((xs.zip l).map (fun p => p.1 * p.2)).sum
  let sxx := (xs.map (fun x => x ^ 2)).sum
  (n * sxy - sx * sy) / (n * sxx - sx ^ 2)

/-- A Sleeper scoring-settings dictionary: stat key to points per unit. -/
abbrev ScoringTable := List (String × ℚ)

/-- One player's stat record for one week. -/
abbrev StatRecord := List (String × ℚ)

/-- One weekly stats (or projections) snapshot: player id to stat record. -/
abbrev Snapshot := List (String × StatRecord)

/-- The `stat_mappings` table of `PlayerScorer.calculate_fantasy_points`. -/
def stat_mappings : List (String × String) :=
  [("pass_yd", "pts_pass_yd"),
   ("pass_td", "pts_pass_td"),
   ("pass_int", "pts_pass_int"),
   ("rush_yd", "pts_rush_yd"),
   ("rush_td", "pts_rush_td"),
   ("rec", "pts_rec"),
   ("rec_yd", "pts_rec_yd"),
   ("rec_td", "pts_rec_td"),
   ("fum_lost", "pts_fum_lost"),
   ("pass_2pt", "pts_pass_2pt"),
   ("rush_2pt", "pts_rush_2pt"),
   ("rec_2pt", "pts_rec_2pt")]

/-- The summation loop of `calculate_fantasy_points` restricted to an
explicit list of stat mappings (the full loop uses `stat_mappings`).
A term contributes only when the stat key is present in the record and
the scoring key is present in the settings; `stats[k] or 0` and
`settings[k] or 0` are the identity on numeric values and are dropped. -/
def rawPointsOn (maps : List (String × String)) (scoring : ScoringTable)
    (stats : StatRecord) : ℚ :=
  maps.foldl (fun points m =>
    match dictGet stats m.1, dictGet scoring m.2 with
    | some stat_value, some points_per => points + stat_value * points_per
    | _, _ => points) 0

/-- The unrounded point total of `PlayerScorer.calculate_fantasy_points`. -/
def rawPoints (scoring : ScoringTable) (stats : StatRecord) : ℚ :=
  rawPointsOn stat_mappings scoring stats

/-- The single term the summation loop adds for one stat mapping. -/
def termOf (scoring : ScoringTable) (stats : StatRecord) (m : String × String) : ℚ :=
  match dictGet stats m.1, dictGet scoring m.2 with
  | some stat_value, some points_per => stat_value * points_per
  | _, _ => 0

/-- `PlayerScorer.calculate_fantasy_points`: the weighted stat sum,
rounded to two decimals after summation. -/
def calculate_fantasy_points (scoring : ScoringTable) (stats : StatRecord) : ℚ :=
  round2 (rawPoints scoring stats)

/-- The contribution of the single stat key `s` to the unrounded total
(the terms of the summation loop whose stat key equals `s`). -/
def statContribution (scoring : ScoringTable) (stats : StatRecord) (s : String) : ℚ :=
  rawPointsOn (stat_mappings.filter (fun m => m.1 = s)) scoring stats

/-- Scale the value stored under stat key `s` by `k`, leaving every
other stat of the record fixed. -/
def scaleStat (s : String) (k : ℚ) (stats : StatRecord) : StatRecord :=
  stats.map (fun p => if p.1 = s then (p.1, k * p.2) else p)

/-- The profile dictionary built by `PlayerScorer.analyze_player_performance`.
The zero branches of the source omit the `points_history` key; they are
modelled with an empty history. -/
structure PlayerPerformance where
  player_id : String
  avg_points : ℚ
  recent_avg : ℚ
  projected : ℚ
  consistency : ℝ
  trend : ℚ
  games_played : ℕ
  points_history : List ℚ

/-- The all-zero profile returned when no weekly points were recorded. -/
def zeroPerformance (pid : String) : PlayerPerformance :=
  { player_id := pid, avg_points := 0, recent_avg := 0, projected := 0,
    consistency := 0, trend := 0, games_played := 0, points_history := [] }

/-- `PlayerScorer.analyze_player_performance`.  A `None` projections
argument and an empty projections dict behave identically in the source
and are both modelled by `[]`.  In the main branch the history is
non-empty, so `recent_games ≥ 1` and the `if recent_games > 0` guard of
the source is vacuous. -/
noncomputable def analyze_player_performance (scoring : ScoringTable)
    (player_id : String) (weekly_stats : List Snapshot)
    (projections : Snapshot) : PlayerPerformance :=
  if weekly_stats = [] then zeroPerformance player_id
  else
    let points_history := weekly_stats.filterMap
      (fun week_stats => (dictGet week_stats player_id).map (calculate_fantasy_points scoring))
    if points_history = [] then zeroPerformance player_id
    else
      let avg_points := npMean points_history
      let recent_games := min 3 points_history.length
      let recent_avg := npMean (points_history.drop (points_history.length - recent_games))
      let consistency : ℝ :=
        if 0 < avg_points then 1 - npStd points_history / ((avg_points : ℝ) + 1) else 0
      let trend := if 3 ≤ points_history.length then olsSlope points_history else 0
      let projected_points :=
        match dictGet projections player_id with
        | some proj_stats => calculate_fantasy_points scoring proj_stats
        | none => 0
      { player_id := player_id
        avg_points := round2 avg_points
        recent_avg := round2 recent_avg
        projected := round2 projected_points
        consistency := round2R consistency
        trend := round2 trend
        games_played := points_history.length
        points_history := points_history }

/-- The `default_weights` dictionary of `PlayerScorer.__init__`. -/
structure Weights where
  recent_performance : ℝ
  season_average : ℝ
  projections : ℝ
  consistency : ℝ
  trending : ℝ

def default_weights : Weights :=
  { recent_performance := 0.35, season_average := 0.20, projections := 0.25,
    consistency := 0.10, trending := 0.10 }

/-- A waiver candidate row as produced by
`LeagueAnalyzer.get_available_players`. -/
structure Candidate where
  player_id : String
  name : String
  position : String
  team : Option String
  injury_status : Option String
deriving DecidableEq

/-- One row of the data frame built by
`PlayerScorer.score_waiver_candidates`.  The per-component display
columns (`**score_components`) are omitted; no claim reads them. -/
structure ScoredPlayer where
  player_id : String
  name : String
  position : String
  team : Option String
  waiver_score : ℝ
  avg_points : ℚ
  recent_avg : ℚ
  projected : ℚ
  consistency : ℝ
  trend : ℚ
  games_played : ℕ
  is_trending : Bool
  injury_status : Option String

/-- The body of the candidate loop of
`PlayerScorer.score_waiver_candidates` for one candidate.
`trending_players` models the set of player ids collected from the
optional `trending_data` argument (the empty list when it is `None`). -/
noncomputable def scoreCandidate (scoring : ScoringTable)
    (weekly_stats : List Snapshot) (projections : Snapshot)
    (trending_players : List String) (c : Candidate) : ScoredPlayer :=
  let performance := analyze_player_performance scoring c.player_id weekly_stats projections
  let waiver_score : ℝ :=
    if 0 < performance.games_played then
      let recent := (performance.recent_avg : ℝ) * default_weights.recent_performance
      let average := (performance.avg_points : ℝ) * default_weights.season_average
      let projected := (performance.projected : ℝ) * default_weights.projections
      let consistencyPart := performance.consistency * 10 * default_weights.consistency
      let is_trending : ℝ := if c.player_id ∈ trending_players then 1 else 0
      let trendingPart := is_trending * 5 * default_weights.trending
      let base := recent + average + projected + consistencyPart + trendingPart
      if 0 < performance.trend then base * (1 + min ((performance.trend : ℝ) * 0.1) 0.3)
      else base
    else 0
  { player_id := c.player_id, name := c.name, position := c.position,
    team := c.team, waiver_score := round2R waiver_score,
    avg_points := performance.avg_points, recent_avg := performance.recent_avg,
    projected := performance.projected, consistency := performance.consistency,
    trend := performance.trend, games_played := performance.games_played,
    is_trending := decide (c.player_id ∈ trending_players),
    injury_status := c.injury_status }

/-- Descending order on a real-valued key. -/
def descBy {α : Type} (f : α → ℝ) : α → α → Prop := fun a b => f b ≤ f a

noncomputable instance descByDecidable {α : Type} (f : α → ℝ) :
    DecidableRel (descBy f) :=
  fun a b => inferInstanceAs (Decidable (f b ≤ f a))

instance descByTotal {α : Type} (f : α → ℝ) : IsTotal α (descBy f) :=
  ⟨fun a b => le_total (f b) (f a)⟩

instance descByTrans {α : Type} (f : α → ℝ) : IsTrans α (descBy f) :=
  ⟨fun _ _ _ h1 h2 => le_trans h2 h1⟩

/-- `PlayerScorer.score_waiver_candidates`: score every candidate and
sort by `waiver_score` descending.  The source sorts with pandas
`sort_values` whose order among equal scores is unspecified; it is
modelled with a sort, and no claim relies on the tie order of this
final display sort. -/
noncomputable def score_waiver_candidates (scoring : ScoringTable)
    (candidates : List Candidate) (weekly_stats : List Snapshot)
    (projections : Snapshot) (trending_players : List String) : List ScoredPlayer :=
  (candidates.map (scoreCandidate scoring weekly_stats projections trending_players)).insertionSort
    (descBy ScoredPlayer.waiver_score)

/-- The fields of a Sleeper player-directory entry read by
`LeagueAnalyzer`. -/
structure PlayerData where
  first_name : String
  last_name : String
  position : Option String
  team : Option String
  injury_status : Option String
deriving DecidableEq

/-- One entry of `LeagueAnalyzer.roster_by_user` as assembled by
`_process_rosters`. -/
structure RosterInfo where
  players : List String
  starters : List String
  reserve : List String
  taxi : List String
  roster_id : ℤ
  username : String
deriving DecidableEq

/-- The `LeagueAnalyzer` state read by `analyze_roster_needs`:
the processed `roster_by_user` dictionary and the player directory. -/
structure Analyzer where
  roster_by_user : List (String × RosterInfo)
  all_players : List (String × PlayerData)
deriving DecidableEq

/-- A per-position player detail row of the `position_players` output. -/
structure PlayerDetail where
  name : String
  team : Option String
  injury_status : Option String
deriving DecidableEq

/-- Python `str.strip()`: drop leading and trailing whitespace. -/
def pyStrip (s : String) : String :=
  ⟨((s.data.dropWhile Char.isWhitespace).reverse.dropWhile Char.isWhitespace).reverse⟩

/-- `f"{first} {last}".strip()` of the source. -/
def fullName (pd : PlayerData) : String := pyStrip (pd.first_name ++ " " ++ pd.last_name)

/-- The `ideal_roster` constant of `LeagueAnalyzer.analyze_roster_needs`. -/
def ideal_roster : List (String × ℕ) :=
  [("QB", 2), ("RB", 5), ("WR", 5), ("TE", 2), ("K", 1), ("DEF", 1)]

/-- The three need tiers built by `analyze_roster_needs`. -/
structure Needs where
  critical : List String
  moderate : List String
  depth : List String
deriving DecidableEq

/-- One iteration of the classification loop of `analyze_roster_needs`:
`deficit > 1` is critical, `deficit == 1` moderate, `deficit == 0` for
RB/WR depth, anything else is left unclassified. -/
def needStep (counts : String → ℕ) (acc : Needs) (p : String × ℕ) : Needs :=
  let deficit : ℤ := (p.2 : ℤ) - (counts p.1 : ℤ)
  if 1 < deficit then { acc with critical := acc.critical ++ [p.1] }
  else if deficit = 1 then { acc with moderate := acc.moderate ++ [p.1] }
  else if deficit = 0 ∧ (p.1 = "RB" ∨ p.1 = "WR") then { acc with depth := acc.depth ++ [p.1] }
  else acc

/-- The full classification loop over `ideal_roster`. -/
def needsFor (counts : String → ℕ) : Needs :=
  ideal_roster.foldl (needStep counts) { critical := [], moderate := [], depth := [] }

/-- Helper for `dedupFirst`: drop the elements already seen. -/
def dedupFirstAux (seen : List String) : List String → List String
  | [] => []
  | a :: l => if a ∈ seen then dedupFirstAux seen l else a :: dedupFirstAux (a :: seen) l

/-- First occurrences of each element, in first-seen order: the key
order of a Python dict filled by repeated insertion. -/
def dedupFirst (l : List String) : List String := dedupFirstAux [] l

/-- The dictionary returned by `analyze_roster_needs` for a user that
has a roster.  `position_counts` and `position_players` are the
`defaultdict`s of the source converted to association lists in
first-seen key order. -/
structure RosterAnalysis where
  needs : Needs
  position_counts : List (String × ℕ)
  position_players : List (String × List PlayerDetail)
deriving DecidableEq

/-- `LeagueAnalyzer.analyze_roster_needs`.  An unknown user id makes the
source return the empty dict `{}`, modelled as `none`; for a known user
the populated three-key dict is returned, modelled as `some`.  A roster
player whose directory entry is missing, or whose `position` is missing
or the falsy empty string, is skipped by the counting loop. -/
def analyze_roster_needs (A : Analyzer) (user_id : String) : Option RosterAnalysis :=
  match dictGet A.roster_by_user user_id with
  | none => none
  | some roster_info =>
    let found : List (String × PlayerData) := roster_info.players.filterMap
      (fun pid => (dictGet A.all_players pid).bind
        (fun pd => pd.position.bind
          (fun pos => if pos = "" then none else some (pos, pd))))
    let posList := found.map Prod.fst
    let keys := dedupFirst posList
    some
      { needs := needsFor (fun pos => posList.count pos)
        position_counts := keys.map (fun pos => (pos, posList.count pos))
        position_players := keys.map (fun pos =>
          (pos, (found.filter (fun q => q.1 = pos)).map
            (fun q => { name := fullName q.2, team := q.2.team,
                        injury_status := q.2.injury_status : PlayerDetail }))) }

/-- A row of the recommendations data frame built by
`WaiverRecommender.generate_recommendations`. -/
structure Recommendation where
  player : ScoredPlayer
  need_level : String
  adjusted_score : ℝ

/-- The need-tier loop of `generate_recommendations`: the tiers are
tried in the dict insertion order critical, moderate, depth; the first
tier containing the position fixes the label and the boost
(`priority_boost`), otherwise the label is `luxury` and the score is
left unchanged. -/
def needLevelFor (needs : Needs) (pos : String) : String × ℝ :=
  if pos ∈ needs.critical then ("critical", 1.5)
  else if pos ∈ needs.moderate then ("moderate", 1.2)
  else if pos ∈ needs.depth then ("depth", 1.0)
  else ("luxury", 1)

/-- The per-candidate body of `generate_recommendations`. -/
noncomputable def boostPlayer (needs : Needs) (s : ScoredPlayer) : Recommendation :=
  { player := s, need_level := (needLevelFor needs s.position).1,
    adjusted_score := s.waiver_score * (needLevelFor needs s.position).2 }

/-- `df.nlargest(n, key)` with the default `keep` policy, on a frame
that has the key column (i.e. built from a non-empty row list): the
first `n` rows of the stable descending order (ties keep the input
order); an `n` beyond the frame size keeps the whole frame.  The
`KeyError` pandas raises when the frame lacks the column — the empty
`pd.DataFrame([])` — is modelled at the call site,
`generate_recommendations`, where that frame is built. -/
noncomputable def nlargest {α : Type} (n : ℕ) (f : α → ℝ) (l : List α) : List α :=
  (l.insertionSort (descBy f)).take n

/-- The position filter step of `generate_recommendations`. -/
def positionFiltered (scored_players : List ScoredPlayer)
    (position_filter : Option String) : List ScoredPlayer :=
  match position_filter with
  | some p => scored_players.filter (fun s : ScoredPlayer => s.position = p)
  | none => scored_players

/-- The candidate pool after filtering and need boosting, in the input
order of the scored frame. -/
noncomputable def boostedPool (needs : Needs) (scored_players : List ScoredPlayer)
    (position_filter : Option String) : List Recommendation :=
  (positionFiltered scored_players position_filter).map (boostPlayer needs)

/-- `WaiverRecommender.generate_recommendations`, from the needs of the
target roster and the scored-candidates frame: optional position
filter, need boost per row, then the `top_n` largest adjusted scores.
When the filtered pool is empty, the loop appends nothing,
`pd.DataFrame(recommendations)` is a column-less frame, and
`df.nlargest(top_n, 'adjusted_score')` raises `KeyError` — modelled by
the error branch; on a non-empty pool `nlargest` returns normally. -/
noncomputable def generate_recommendations (needs : Needs)
    (scored_players : List ScoredPlayer) (top_n : ℕ)
    (position_filter : Option String) : Except String (List Recommendation) :=
  let recommendations := boostedPool needs scored_players position_filter
  if recommendations.isEmpty then Except.error "KeyError: adjusted_score"
  else Except.ok (nlargest top_n Recommendation.adjusted_score recommendations)

/-- The spec's wording of the selection: order by adjusted score
descending, break ties by the original input position (ascending), and
keep the first `top_n` — a strict lexicographic order on
(score descending, input index ascending). -/
def lexAfter (a b : ℕ × Recommendation) : Prop :=
  b.2.adjusted_score < a.2.adjusted_score ∨
    (a.2.adjusted_score = b.2.adjusted_score ∧ a.1 ≤ b.1)

noncomputable instance lexAfterDecidable : DecidableRel lexAfter := fun _ _ =>
  inferInstanceAs (Decidable (_ ∨ _))

/-- The spec-level ranking: index the pool, sort lexicographically by
(adjusted score descending, original index ascending), strip the
indices, keep the first `top_n`. -/
noncomputable def lexRank (top_n : ℕ) (l : List Recommendation) : List Recommendation :=
  (((l.enum).insertionSort lexAfter).map Prod.snd).take top_n

/-- One preset of the scoring configuration. -/
structure Preset where
  name : String
  description : String
  settings : ScoringTable
deriving DecidableEq

/-- The `standard` preset table of `_get_default_presets`. -/
def standardSettings : ScoringTable :=
  [("pts_pass_yd", 0.04), ("pts_pass_td", 4), ("pts_pass_int", -2),
   ("pts_rush_yd", 0.1), ("pts_rush_td", 6), ("pts_rec", 0),
   ("pts_rec_yd", 0.1), ("pts_rec_td", 6), ("pts_fum_lost", -2),
   ("pts_pass_2pt", 2), ("pts_rush_2pt", 2), ("pts_rec_2pt", 2)]

/-- The `ppr` preset table of `_get_default_presets`. -/
def pprSettings : ScoringTable :=
  [("pts_pass_yd", 0.04), ("pts_pass_td", 4), ("pts_pass_int", -2),
   ("pts_rush_yd", 0.1), ("pts_rush_td", 6), ("pts_rec", 1),
   ("pts_rec_yd", 0.1), ("pts_rec_td", 6), ("pts_fum_lost", -2),
   ("pts_pass_2pt", 2), ("pts_rush_2pt", 2), ("pts_rec_2pt", 2)]

/-- Modelled from the spec: the `half_ppr` preset table of the
repository's `config/scoring_settings.json` (the config file is not
under `src/`), a reception coefficient of `0.5` with otherwise
PPR-shaped coefficients. -/
def halfPprSettings : ScoringTable :=
  [("pts_pass_yd", 0.04), ("pts_pass_td", 4), ("pts_pass_int", -2),
   ("pts_rush_yd", 0.1), ("pts_rush_td", 6), ("pts_rec", 0.5),
   ("pts_rec_yd", 0.1), ("pts_rec_td", 6), ("pts_fum_lost", -2),
   ("pts_pass_2pt", 2), ("pts_rush_2pt", 2), ("pts_rec_2pt", 2)]

/-- `ScoringManager._get_default_presets`: the in-code fallback used
when the config file is missing (only `standard` and `ppr`). -/
def defaultPresets : List (String × Preset) :=
  [("standard",
    { name := "Standard Scoring",
      description := "Traditional fantasy football scoring without PPR",
      settings := standardSettings }),
   ("ppr",
    { name := "PPR (Point Per Reception)",
      description := "Full point per reception scoring",
      settings := pprSettings })]

/-- Modelled from the spec: the presets loaded from the repository's
`config/scoring_settings.json`, which is not under `src/`.  The spec
requires a `half_ppr` preset whose reception coefficient is `0.5`;
`standard` and `ppr` match the in-code defaults.  Further presets of
the config file (`superflex`, `dynasty`) have unspecified tables and
are not modelled. -/
def configPresets : List (String × Preset) :=
  defaultPresets ++
  [("half_ppr",
    { name := "Half PPR",
      description := "Half point per reception scoring",
      settings := halfPprSettings })]

/-- `ScoringManager.get_scoring_settings`.  `custom` models the
`.env.scoring.json` override (`none` when the file does not exist);
`presets` is the loaded preset dictionary.  A `None` or empty
`league_settings` dict are both falsy in the source and are modelled by
the empty list.  An explicit preset name is used only when it is truthy
and present in `presets`; otherwise the source falls through without
error to league detection and finally to the `standard` preset. -/
def get_scoring_settings (custom : Option ScoringTable)
    (presets : List (String × Preset)) (preset_name : Option String)
    (league_settings : ScoringTable) (use_league_settings : Bool) : ScoringTable :=
  match custom with
  | some t => t
  | none =>
    let presetHit : Option ScoringTable :=
      match preset_name with
      | some n => if n ≠ "" then (dictGet presets n).map Preset.settings else none
      | none => none
    match presetHit with
    | some t => t
    | none =>
      if use_league_settings ∧ league_settings ≠ [] then
        let pts_rec := (dictGet league_settings "pts_rec").getD 0
        if pts_rec = 1 then ((dictGet presets "ppr").map Preset.settings).getD league_settings
        else if pts_rec = 0.5 then
          ((dictGet presets "half_ppr").map Preset.settings).getD league_settings
        else league_settings
      else ((dictGet presets "standard").map Preset.settings).getD []

/-- The resolution contract as the spec words it: an explicit preset
name that is not a known preset is an input validation error surfaced
to the caller.  This definition follows the spec, not the source; it is
compared against `get_scoring_settings` to settle the claim about
unknown preset names. -/
def getScoringSettingsSpec (custom : Option ScoringTable)
    (presets : List (String × Preset)) (preset_name : Option String)
    (league_settings : ScoringTable) (use_league_settings : Bool) :
    Except String ScoringTable :=
  match custom with
  | some t => .ok t
  | none =>
    match preset_name with
    | some n =>
      match dictGet presets n with
      | some p => .ok p.settings
      | none => .error ("unknown preset: " ++ n)
    | none =>
      if use_league_settings ∧ league_settings ≠ [] then
        let pts_rec := (dictGet league_settings "pts_rec").getD 0
        if pts_rec = 1 then .ok (((dictGet presets "ppr").map Preset.settings).getD league_settings)
        else if pts_rec = 0.5 then
          .ok (((dictGet presets "half_ppr").map Preset.settings).getD league_settings)
        else .ok league_settings
      else .ok (((dictGet presets "standard").map Preset.settings).getD [])

/-! ### Helper lemmas -/

theorem length_filterMap_eq_countP {α β : Type} (f : α → Option β) (l : List α) :
    (l.filterMap f).length = l.countP (fun a => (f a).isSome) := by
  induction l with
  | nil => simp
  | cons a t ih =>
    cases h : f a <;> simp [List.filterMap_cons, h, List.countP_cons, ih]

theorem pointsStep_eq (scoring : ScoringTable) (stats : StatRecord)
    (m : String × String) (a : ℚ) :
    (match dictGet stats m.1, dictGet scoring m.2 with
      | some stat_value, some points_per => a + stat_value * points_per
      | _, _ => a) = a + termOf scoring stats m := by
  unfold termOf
  cases dictGet stats m.1 <;> cases dictGet scoring m.2 <;> simp

theorem rawPointsOn_foldl (scoring : ScoringTable) (stats : StatRecord)
    (maps : List (String × String)) (a : ℚ) :
    (maps.foldl (fun points m =>
      match dictGet stats m.1, dictGet scoring m.2 with
      | some stat_value, some points_per => points + stat_value * points_per
      | _, _ => points) a) = a + (maps.map (termOf scoring stats)).sum := by
  induction maps generalizing a with
  | nil => simp
  | cons m t ih =>
    simp only [List.foldl_cons, List.map_cons, List.sum_cons]
    rw [ih, pointsStep_eq]
    ring

theorem rawPointsOn_eq_sum (scoring : ScoringTable) (stats : StatRecord)
    (maps : List (String × String)) :
    rawPointsOn maps scoring stats = (maps.map (termOf scoring stats)).sum := by
  unfold rawPointsOn
  rw [rawPointsOn_foldl]
  ring

theorem scaleStat_cons (s : String) (k : ℚ) (p : String × ℚ) (l : StatRecord) :
    scaleStat s k (p :: l)
      = (if p.1 = s then (p.1, k * p.2) else p) :: scaleStat s k l := rfl

theorem dictGet_scaleStat (s : String) (k : ℚ) (stats : StatRecord) (t : String) :
    dictGet (scaleStat s k stats) t
      = if t = s then (dictGet stats t).map (fun v => k * v) else dictGet stats t := by
  induction stats with
  | nil => simp [scaleStat, dictGet]
  | cons p l ih =>
    rw [scaleStat_cons]
    by_cases hps : p.1 = s <;> by_cases hpt : p.1 = t
    · rw [if_pos hps]
      rw [← hpt, ← hps]
      simp [dictGet]
    · have h' : ¬ t = s := fun h => hpt (h ▸ hps)
      have h'' : ¬ s = t := fun h => h' h.symm
      rw [if_pos hps]
      simp [dictGet, hpt, ih, h', hps, h'']
    · have h' : t = s → False := fun h => hps (hpt.trans h)
      rw [if_neg hps, ← hpt]
      simp [dictGet, h', hps]
    · rw [if_neg hps]
      have h' : ¬ t = p.1 := fun h => hpt h.symm
      simp [dictGet, hpt, ih, h']


theorem termOf_scaleStat (scoring : ScoringTable) (stats : StatRecord)
    (s : String) (k : ℚ) (m : String × String) :
    termOf scoring (scaleStat s k stats) m
      = if m.1 = s then k * termOf scoring stats m else termOf scoring stats m := by
  unfold termOf
  rw [dictGet_scaleStat]
  by_cases h : m.1 = s
  · simp only [if_pos h]
    cases dictGet stats m.1 <;> cases dictGet scoring m.2 <;> simp [mul_assoc]
  · simp only [if_neg h]

theorem sum_termOf_scaleStat (scoring : ScoringTable) (stats : StatRecord)
    (s : String) (k : ℚ) (maps : List (String × String)) :
    (maps.map (termOf scoring (scaleStat s k stats))).sum
      = (maps.map (termOf scoring stats)).sum
        + (k - 1) * ((maps.filter (fun m => m.1 = s)).map (termOf scoring stats)).sum := by
  induction maps with
  | nil => simp
  | cons m t ih =>
    simp only [List.map_cons, List.sum_cons, termOf_scaleStat, ih]
    by_cases h : m.1 = s
    · rw [if_pos h, List.filter_cons_of_pos (by simp [h])]
      simp only [List.map_cons, List.sum_cons]
      ring
    · rw [if_neg h, List.filter_cons_of_neg (by simp [h])]
      ring

theorem round2R_ratCast (q : ℚ) : round2R ((q : ℚ) : ℝ) = ((round2 q : ℚ) : ℝ) := by
  unfold round2R round2
  have h : ((q : ℝ) * 100) = (((q * 100 : ℚ)) : ℝ) := by push_cast; ring
  rw [h, Rat.round_cast]
  push_cast
  ring

theorem round2R_zero : round2R 0 = 0 := by
  unfold round2R
  norm_num

theorem round2_eval (q : ℚ) (n : ℤ) (h : q * 100 = (n : ℚ)) : round2 q = (n : ℚ) / 100 := by
  unfold round2
  rw [h, round_intCast]

/-! ### Claim theorems -/

/-- Claim C7: the fantasy-point total is linear in each individual stat
value with the others held fixed — scaling the value stored under one
stat key by `k` scales that stat's contribution to the unrounded total
by exactly `k`, and the 2-decimal rounding is applied only to the sum. -/
theorem fantasy_points_linear (scoring : ScoringTable) (stats : StatRecord)
    (s : String) (k : ℚ) :
    rawPoints scoring (scaleStat s k stats)
      = rawPoints scoring stats + (k - 1) * statContribution scoring stats s ∧
    statContribution scoring (scaleStat s k stats) s
      = k * statContribution scoring stats s ∧
    calculate_fantasy_points scoring (scaleStat s k stats)
      = round2 (rawPoints scoring stats + (k - 1) * statContribution scoring stats s) := by
  have h1 : rawPoints scoring (scaleStat s k stats)
      = rawPoints scoring stats + (k - 1) * statContribution scoring stats s := by
    unfold rawPoints statContribution
    rw [rawPointsOn_eq_sum, rawPointsOn_eq_sum, rawPointsOn_eq_sum, sum_termOf_scaleStat]
  refine ⟨h1, ?_, ?_⟩
  · unfold statContribution
    rw [rawPointsOn_eq_sum, rawPointsOn_eq_sum, sum_termOf_scaleStat,
      List.filter_filter]
    simp only [Bool.and_self]
    ring
  · unfold calculate_fantasy_points
    rw [h1]

/-- Claim C6: a weekly snapshot that has no record for the player is not
recorded as a zero-point game: it contributes no entry to the points
history, and `games_played` is exactly the number of snapshots that do
contain a record for the player. -/
theorem games_played_counts_present_weeks (scoring : ScoringTable)
    (player_id : String) (weekly_stats : List Snapshot) (projections : Snapshot) :
    (analyze_player_performance scoring player_id weekly_stats projections).games_played
      = weekly_stats.countP (fun w => (dictGet w player_id).isSome) ∧
    (analyze_player_performance scoring player_id weekly_stats projections).points_history
      = weekly_stats.filterMap
          (fun w => (dictGet w player_id).map (calculate_fantasy_points scoring)) := by
  have hlen : (weekly_stats.filterMap
        (fun w => (dictGet w player_id).map (calculate_fantasy_points scoring))).length
      = weekly_stats.countP (fun w => (dictGet w player_id).isSome) := by
    rw [length_filterMap_eq_countP]
    congr 1
    funext w
    cases dictGet w player_id <;> simp
  unfold analyze_player_performance
  by_cases h1 : weekly_stats = []
  · subst h1
    simp [zeroPerformance]
  · rw [if_neg h1]
    by_cases h2 : (weekly_stats.filterMap
        (fun week_stats => (dictGet week_stats player_id).map (calculate_fantasy_points scoring))) = []
    · have hc : weekly_stats.countP (fun w => (dictGet w player_id).isSome) = 0 := by
        rw [← hlen, h2, List.length_nil]
      simp [h2, zeroPerformance, hc]
    · simp [h2]
      exact hlen


/-- Claim C8: for a profile computed from a non-empty points history the
consistency computation never divides by zero — when the season average
is positive the stored consistency is `1 - stdev/(average + 1)` (rounded
to two decimals) and the denominator `average + 1` is nonzero, and when
the average is not positive the stored consistency is exactly `0`. -/
theorem consistency_division_guard (scoring : ScoringTable) (player_id : String)
    (weekly_stats : List Snapshot) (projections : Snapshot)
    (hne : (analyze_player_performance scoring player_id weekly_stats projections).points_history ≠ []) :
    (0 < npMean (analyze_player_performance scoring player_id weekly_stats projections).points_history →
      ((npMean (analyze_player_performance scoring player_id weekly_stats projections).points_history : ℝ) + 1 ≠ 0 ∧
       (analyze_player_performance scoring player_id weekly_stats projections).consistency
         = round2R (1 - npStd (analyze_player_performance scoring player_id weekly_stats projections).points_history
             / ((npMean (analyze_player_performance scoring player_id weekly_stats projections).points_history : ℝ) + 1)))) ∧
    (npMean (analyze_player_performance scoring player_id weekly_stats projections).points_history ≤ 0 →
      (analyze_player_performance scoring player_id weekly_stats projections).consistency = 0) := by
  unfold analyze_player_performance at *
  by_cases h1 : weekly_stats = []
  · simp [h1, zeroPerformance] at hne
  · rw [if_neg h1] at *
    by_cases h2 : (weekly_stats.filterMap
        (fun week_stats => (dictGet week_stats player_id).map (calculate_fantasy_points scoring))) = []
    · simp [h2, zeroPerformance] at hne
    · simp only [h2, if_false, if_neg h2] at *
      constructor
      · intro havg
        constructor
        · have hcast : (0 : ℝ) < (npMean (weekly_stats.filterMap
              (fun week_stats => (dictGet week_stats player_id).map (calculate_fantasy_points scoring))) : ℝ) := by
            exact_mod_cast havg
          intro hzero
          linarith
        · simp only [if_pos havg]
      · intro havg
        rw [if_neg (not_lt.mpr havg), round2R_zero]

theorem consistency_division_guard_witness :
    (analyze_player_performance [("pts_rec", 1)] "p1"
        [[("p1", [("rec", 2)])], [("p1", [("rec", 2)])]] []).points_history ≠ [] ∧
    0 < npMean (analyze_player_performance [("pts_rec", 1)] "p1"
        [[("p1", [("rec", 2)])], [("p1", [("rec", 2)])]] []).points_history ∧
    (analyze_player_performance [("pts_rec", 1)] "p1"
        [[("p1", [("rec", 2)])], [("p1", [("rec", 2)])]] []).consistency = 1 := by
  have hhist : (analyze_player_performance [("pts_rec", 1)] "p1"
      [[("p1", [("rec", 2)])], [("p1", [("rec", 2)])]] []).points_history = [2, 2] := by
    simp [analyze_player_performance, dictGet, calculate_fantasy_points, rawPoints, rawPointsOn,
      stat_mappings]
    rw [round2_eval 2 200 (by norm_num)]
    norm_num
  have hne : (analyze_player_performance [("pts_rec", 1)] "p1"
      [[("p1", [("rec", 2)])], [("p1", [("rec", 2)])]] []).points_history ≠ [] := by
    simp [hhist]
  have havg : 0 < npMean (analyze_player_performance [("pts_rec", 1)] "p1"
      [[("p1", [("rec", 2)])], [("p1", [("rec", 2)])]] []).points_history := by
    rw [hhist]
    norm_num [npMean]
  have h := ((consistency_division_guard [("pts_rec", 1)] "p1"
      [[("p1", [("rec", 2)])], [("p1", [("rec", 2)])]] [] hne).1 havg).2
  refine ⟨hne, havg, ?_⟩
  rw [h, hhist]
  have hm : npMean [(2 : ℚ), 2] = 2 := by norm_num [npMean]
  have hstd : npStd [(2 : ℚ), 2] = 0 := by
    unfold npStd
    have hv : npVar [(2 : ℚ), 2] = 0 := by norm_num [npVar, npMean]
    rw [hv]
    simp
  rw [hm, hstd]
  rw [show (1 - (0 : ℝ) / (((2 : ℚ) : ℝ) + 1)) = ((1 : ℚ) : ℝ) by norm_num]
  rw [round2R_ratCast, round2_eval 1 100 (by norm_num)]
  norm_num

/-- Claim C1: for a candidate with recorded games the waiver score is the
weighted composite `recent_avg*0.35 + avg_points*0.20 + projected*0.25 +
(consistency*10)*0.10 + (5 if trending else 0)*0.10` (amplified by the
momentum multiplier when the trend is positive) rounded to two decimals
at the end; for a candidate with no recorded games the waiver score is
exactly `0`, and in both cases the candidate still appears as an entry
of the scored output rather than being excluded. -/
theorem waiver_score_composite (scoring : ScoringTable) (weekly_stats : List Snapshot)
    (projections : Snapshot) (trending_players : List String)
    (candidates : List Candidate) (c : Candidate) (hc : c ∈ candidates) :
    scoreCandidate scoring weekly_stats projections trending_players c
      ∈ score_waiver_candidates scoring candidates weekly_stats projections trending_players ∧
    (0 < (analyze_player_performance scoring c.player_id weekly_stats projections).games_played →
      (scoreCandidate scoring weekly_stats projections trending_players c).waiver_score
        = round2R
            (if 0 < (analyze_player_performance scoring c.player_id weekly_stats projections).trend
             then (((analyze_player_performance scoring c.player_id weekly_stats projections).recent_avg : ℝ) * 0.35
                + ((analyze_player_performance scoring c.player_id weekly_stats projections).avg_points : ℝ) * 0.20
                + ((analyze_player_performance scoring c.player_id weekly_stats projections).projected : ℝ) * 0.25
                + (analyze_player_performance scoring c.player_id weekly_stats projections).consistency * 10 * 0.10
                + (if c.player_id ∈ trending_players then (5 : ℝ) else 0) * 0.10)
               * (1 + min (((analyze_player_performance scoring c.player_id weekly_stats projections).trend : ℝ) * 0.1) 0.3)
             else (((analyze_player_performance scoring c.player_id weekly_stats projections).recent_avg : ℝ) * 0.35
                + ((analyze_player_performance scoring c.player_id weekly_stats projections).avg_points : ℝ) * 0.20
                + ((analyze_player_performance scoring c.player_id weekly_stats projections).projected : ℝ) * 0.25
                + (analyze_player_performance scoring c.player_id weekly_stats projections).consistency * 10 * 0.10
                + (if c.player_id ∈ trending_players then (5 : ℝ) else 0) * 0.10))) ∧
    ((analyze_player_performance scoring c.player_id weekly_stats projections).games_played = 0 →
      (scoreCandidate scoring weekly_stats projections trending_players c).waiver_score = 0) := by
  refine ⟨?_, ?_, ?_⟩
  · unfold score_waiver_candidates
    exact (List.perm_insertionSort _ _).mem_iff.mpr (List.mem_map_of_mem _ hc)
  · intro hg
    simp only [scoreCandidate, default_weights]
    rw [if_pos hg]
    by_cases hm : c.player_id ∈ trending_players
    · simp only [if_pos hm]
      split_ifs <;> · congr 1; ring
    · simp only [if_neg hm]
      split_ifs <;> · congr 1; ring
  · intro h0
    simp only [scoreCandidate]
    rw [if_neg (by omega), round2R_zero]

theorem waiver_score_composite_witness :
    (⟨"p1", "Ann", "WR", none, none⟩ : Candidate) ∈ [(⟨"p1", "Ann", "WR", none, none⟩ : Candidate)] ∧
    (analyze_player_performance [("pts_rec", 1)] "p1" [[]] []).games_played = 0 ∧
    (scoreCandidate [("pts_rec", 1)] [[]] [] [] ⟨"p1", "Ann", "WR", none, none⟩).waiver_score = 0 := by
  have hmem : (⟨"p1", "Ann", "WR", none, none⟩ : Candidate) ∈
      [(⟨"p1", "Ann", "WR", none, none⟩ : Candidate)] := by simp
  have hz : (analyze_player_performance [("pts_rec", 1)] "p1" [[]] []).games_played = 0 := by
    simp [analyze_player_performance, dictGet, zeroPerformance]
  exact ⟨hmem, hz,
    (waiver_score_composite [("pts_rec", 1)] [[]] [] []
      [⟨"p1", "Ann", "WR", none, none⟩] _ hmem).2.2 hz⟩

/-- Claim C2: for a candidate with recorded games, a strictly positive
trend multiplies the composite by `1 + min(trend * 0.1, 0.3)` — a
momentum bonus capped at the factor `1.3` — while a zero or negative
trend applies no multiplier at all, so the score is never reduced by
the trend. -/
theorem trend_bonus (scoring : ScoringTable) (weekly_stats : List Snapshot)
    (projections : Snapshot) (trending_players : List String) (c : Candidate)
    (hg : 0 < (analyze_player_performance scoring c.player_id weekly_stats projections).games_played) :
    (0 < (analyze_player_performance scoring c.player_id weekly_stats projections).trend →
      (scoreCandidate scoring weekly_stats projections trending_players c).waiver_score
        = round2R
            ((((analyze_player_performance scoring c.player_id weekly_stats projections).recent_avg : ℝ) * 0.35
              + ((analyze_player_performance scoring c.player_id weekly_stats projections).avg_points : ℝ) * 0.20
              + ((analyze_player_performance scoring c.player_id weekly_stats projections).projected : ℝ) * 0.25
              + (analyze_player_performance scoring c.player_id weekly_stats projections).consistency * 10 * 0.10
              + (if c.player_id ∈ trending_players then (5 : ℝ) else 0) * 0.10)
             * (1 + min (((analyze_player_performance scoring c.player_id weekly_stats projections).trend : ℝ) * 0.1) 0.3))
      ∧ 1 + min (((analyze_player_performance scoring c.player_id weekly_stats projections).trend : ℝ) * 0.1) 0.3 ≤ 1.3) ∧
    ((analyze_player_performance scoring c.player_id weekly_stats projections).trend ≤ 0 →
      (scoreCandidate scoring weekly_stats projections trending_players c).waiver_score
        = round2R
            (((analyze_player_performance scoring c.player_id weekly_stats projections).recent_avg : ℝ) * 0.35
              + ((analyze_player_performance scoring c.player_id weekly_stats projections).avg_points : ℝ) * 0.20
              + ((analyze_player_performance scoring c.player_id weekly_stats projections).projected : ℝ) * 0.25
              + (analyze_player_performance scoring c.player_id weekly_stats projections).consistency * 10 * 0.10
              + (if c.player_id ∈ trending_players then (5 : ℝ) else 0) * 0.10)) := by
  constructor
  · intro ht
    constructor
    · simp only [scoreCandidate, default_weights]
      rw [if_pos hg, if_pos ht]
      by_cases hm : c.player_id ∈ trending_players
      · simp only [if_pos hm]
        congr 1
        ring
      · simp only [if_neg hm]
        congr 1
        ring
    · have hmin : min (((analyze_player_performance scoring c.player_id weekly_stats
          projections).trend : ℝ) * 0.1) 0.3 ≤ 0.3 := min_le_right _ _
      linarith
  · intro ht
    simp only [scoreCandidate, default_weights]
    rw [if_pos hg, if_neg (by exact_mod_cast not_lt.mpr ht)]
    by_cases hm : c.player_id ∈ trending_players
    · simp only [if_pos hm]
      congr 1
      ring
    · simp only [if_neg hm]
      congr 1
      ring

/-- Evaluation of the performance profile at the concrete four-week
history `[0, 0, 6, 6]` (used by concrete witnesses). -/
theorem profile_0066_eval : analyze_player_performance [("pts_rec", 1)] "p1"
    [[("p1", [("rec", 0)])], [("p1", [("rec", 0)])], [("p1", [("rec", 6)])], [("p1", [("rec", 6)])]]
    [] =
    { player_id := "p1", avg_points := 3, recent_avg := 4, projected := 0,
      consistency := 1/4, trend := 12/5, games_played := 4, points_history := [0, 0, 6, 6] } := by
  have hh : (([[("p1", [("rec", 0)])], [("p1", [("rec", 0)])], [("p1", [("rec", 6)])], [("p1", [("rec", 6)])]] : List Snapshot).filterMap
      (fun week_stats => (dictGet week_stats "p1").map (calculate_fantasy_points [("pts_rec", 1)]))) = [0, 0, 6, 6] := by
    simp [dictGet, calculate_fantasy_points, rawPoints, rawPointsOn, stat_mappings]
    rw [round2_eval 0 0 (by norm_num), round2_eval 6 600 (by norm_num)]
    norm_num
  have hstd : npStd [(0 : ℚ), 0, 6, 6] = 3 := by
    unfold npStd
    have hv : npVar [(0 : ℚ), 0, 6, 6] = 9 := by norm_num [npVar, npMean]
    rw [hv]
    rw [show (((9 : ℚ) : ℝ)) = (3 : ℝ) ^ 2 by norm_num]
    exact Real.sqrt_sq (by norm_num)
  unfold analyze_player_performance
  rw [if_neg (by simp)]
  simp only [hh]
  rw [if_neg (by simp)]
  simp only [PlayerPerformance.mk.injEq]
  refine ⟨by trivial, ?_, ?_, ?_, ?_, ?_, by simp, by trivial⟩
  · rw [show npMean [(0 : ℚ), 0, 6, 6] = 3 by norm_num [npMean]]
    rw [round2_eval 3 300 (by norm_num)]
    norm_num
  · norm_num
    rw [show npMean [(0 : ℚ), 6, 6] = 4 by norm_num [npMean]]
    rw [round2_eval 4 400 (by norm_num)]
    norm_num
  · simp [dictGet]
    rw [round2_eval 0 0 (by norm_num)]
    norm_num
  · rw [if_pos (by norm_num [npMean])]
    rw [hstd, show npMean [(0 : ℚ), 0, 6, 6] = 3 by norm_num [npMean]]
    rw [show (1 - (3 : ℝ) / (((3 : ℚ) : ℝ) + 1)) = ((1/4 : ℚ) : ℝ) by push_cast; norm_num]
    rw [round2R_ratCast, round2_eval (1/4) 25 (by norm_num)]
    norm_num
  · rw [if_pos (by norm_num)]
    rw [show olsSlope [(0 : ℚ), 0, 6, 6] = 12/5 by
      norm_num [olsSlope, List.range_succ]]
    rw [round2_eval (12/5) 240 (by norm_num)]
    norm_num

theorem trend_bonus_witness :
    0 < (analyze_player_performance [("pts_rec", 1)] "p1"
      [[("p1", [("rec", 0)])], [("p1", [("rec", 0)])], [("p1", [("rec", 6)])], [("p1", [("rec", 6)])]]
      []).games_played ∧
    0 < (analyze_player_performance [("pts_rec", 1)] "p1"
      [[("p1", [("rec", 0)])], [("p1", [("rec", 0)])], [("p1", [("rec", 6)])], [("p1", [("rec", 6)])]]
      []).trend ∧
    (scoreCandidate [("pts_rec", 1)]
      [[("p1", [("rec", 0)])], [("p1", [("rec", 0)])], [("p1", [("rec", 6)])], [("p1", [("rec", 6)])]]
      [] [] ⟨"p1", "Ann", "WR", none, none⟩).waiver_score = 2.79 := by
  have hprof := profile_0066_eval
  have hg : 0 < (analyze_player_performance [("pts_rec", 1)] "p1"
      [[("p1", [("rec", 0)])], [("p1", [("rec", 0)])], [("p1", [("rec", 6)])], [("p1", [("rec", 6)])]]
      []).games_played := by
    rw [hprof]
    norm_num
  have ht : 0 < (analyze_player_performance [("pts_rec", 1)] "p1"
      [[("p1", [("rec", 0)])], [("p1", [("rec", 0)])], [("p1", [("rec", 6)])], [("p1", [("rec", 6)])]]
      []).trend := by
    rw [hprof]
    norm_num
  have h := ((trend_bonus [("pts_rec", 1)]
      [[("p1", [("rec", 0)])], [("p1", [("rec", 0)])], [("p1", [("rec", 6)])], [("p1", [("rec", 6)])]]
      [] [] ⟨"p1", "Ann", "WR", none, none⟩ hg).1 ht).1
  refine ⟨hg, ht, ?_⟩
  rw [h, hprof]
  simp only [List.not_mem_nil, if_false]
  have hmin : min (((12/5 : ℚ) : ℝ) * 0.1) 0.3 = ((12/5 : ℚ) : ℝ) * 0.1 :=
    min_eq_left (by push_cast; norm_num)
  rw [hmin]
  have harg : ((((4 : ℚ) : ℝ) * 0.35 + ((3 : ℚ) : ℝ) * 0.20 + ((0 : ℚ) : ℝ) * 0.25
      + (1/4 : ℝ) * 10 * 0.10 + (0 : ℝ) * 0.10) * (1 + ((12/5 : ℚ) : ℝ) * 0.1))
      = ((279/100 : ℚ) : ℝ) := by
    push_cast
    norm_num
  rw [harg, round2R_ratCast, round2_eval (279/100) 279 (by norm_num)]
  norm_num

/-- Claim C10: a user id that is not among the league's rosters makes
`analyze_roster_needs` return the empty dict (modelled `none`) — no
`needs`, `position_counts` or `position_players` keys at all — and a
known user always gets the populated structure, so the absent-user
shape is distinct from an empty roster's analysis. -/
theorem absent_user_empty_analysis (A : Analyzer) (uid : String) :
    analyze_roster_needs A uid = none ↔ dictGet A.roster_by_user uid = none := by
  unfold analyze_roster_needs
  cases dictGet A.roster_by_user uid <;> simp

/-- Claim C5 (counterexample): an explicit preset name that is unknown
is silently ignored by `get_scoring_settings` — the call returns the
`standard` fallback table exactly as a call without a preset name does,
while the spec's resolution contract would have surfaced an input
validation error. -/
theorem unknown_preset_counterexample :
    get_scoring_settings none configPresets (some "unknown_preset") [] true
      = standardSettings ∧
    get_scoring_settings none configPresets (some "unknown_preset") [] true
      = get_scoring_settings none configPresets none [] true ∧
    getScoringSettingsSpec none configPresets (some "unknown_preset") [] true
      = Except.error "unknown preset: unknown_preset" := by
  refine ⟨rfl, rfl, rfl⟩

/-- Claim C5 (amended): an explicit preset name that is not among the
known presets (or is the falsy empty string) is silently ignored: the
resolution falls through to league detection and the `standard`
fallback, returning exactly what a call without any preset name
returns, and no error is surfaced. -/
theorem unknown_preset_silently_ignored (custom : Option ScoringTable)
    (presets : List (String × Preset)) (n : String)
    (league : ScoringTable) (use_league : Bool)
    (hn : n = "" ∨ dictGet presets n = none) :
    get_scoring_settings custom presets (some n) league use_league
      = get_scoring_settings custom presets none league use_league := by
  unfold get_scoring_settings
  cases custom with
  | some t => rfl
  | none =>
    rcases hn with h | h
    · simp [h]
    · simp [h]

theorem unknown_preset_silently_ignored_witness :
    (("unknown_preset" : String) = "" ∨ dictGet configPresets "unknown_preset" = none) ∧
    get_scoring_settings none configPresets (some "unknown_preset") [("pts_rec", 1)] true
      = get_scoring_settings none configPresets none [("pts_rec", 1)] true :=
  ⟨Or.inr rfl,
   unknown_preset_silently_ignored none configPresets "unknown_preset"
     [("pts_rec", 1)] true (Or.inr rfl)⟩

/-- Claim C9: with no custom override and no valid explicit preset,
when league settings are preferred and non-empty, a reception
coefficient of exactly `1` resolves to the PPR preset table, exactly
`0.5` resolves to the half-PPR preset table, and any other reception
coefficient passes the league table through unchanged. -/
theorem league_detection (league : ScoringTable) (hne : league ≠ []) :
    (((dictGet league "pts_rec").getD 0 = 1 →
      get_scoring_settings none configPresets none league true = pprSettings) ∧
     ((dictGet league "pts_rec").getD 0 = 0.5 →
      get_scoring_settings none configPresets none league true = halfPprSettings)) ∧
    ((dictGet league "pts_rec").getD 0 ≠ 1 → (dictGet league "pts_rec").getD 0 ≠ 0.5 →
      get_scoring_settings none configPresets none league true = league) := by
  unfold get_scoring_settings
  simp only [hne, ne_eq, not_false_iff, and_true, if_true]
  refine ⟨⟨?_, ?_⟩, ?_⟩
  · intro h
    rw [h, if_pos rfl]
    rfl
  · intro h
    rw [h, if_neg (by norm_num : ¬((0.5 : ℚ) = 1)), if_pos rfl]
    rfl
  · intro h1 h2
    rw [if_neg h1, if_neg h2]

theorem league_detection_witness :
    ([("pts_rec", (0.5 : ℚ))] : ScoringTable) ≠ [] ∧
    get_scoring_settings none configPresets none [("pts_rec", 0.5)] true
      = halfPprSettings := by
  refine ⟨by simp, ?_⟩
  exact ((league_detection [("pts_rec", 0.5)] (by simp)).1).2 rfl

theorem needStep_critical (counts : String → ℕ) (acc : Needs) (p : String × ℕ) :
    (needStep counts acc p).critical
      = acc.critical ++ (if 1 < (p.2 : ℤ) - (counts p.1 : ℤ) then [p.1] else []) := by
  simp only [needStep]
  split_ifs <;> simp_all

theorem needStep_moderate (counts : String → ℕ) (acc : Needs) (p : String × ℕ) :
    (needStep counts acc p).moderate
      = acc.moderate ++ (if (p.2 : ℤ) - (counts p.1 : ℤ) = 1 then [p.1] else []) := by
  simp only [needStep]
  split_ifs <;> simp_all

theorem needStep_depth (counts : String → ℕ) (acc : Needs) (p : String × ℕ) :
    (needStep counts acc p).depth
      = acc.depth ++ (if (p.2 : ℤ) - (counts p.1 : ℤ) = 0 ∧ (p.1 = "RB" ∨ p.1 = "WR")
          then [p.1] else []) := by
  simp only [needStep]
  split_ifs <;> simp_all

theorem foldl_needStep_critical (counts : String → ℕ) (ps : List (String × ℕ)) (acc : Needs) :
    (ps.foldl (needStep counts) acc).critical
      = acc.critical ++ ps.filterMap
          (fun p => if 1 < (p.2 : ℤ) - (counts p.1 : ℤ) then some p.1 else none) := by
  induction ps generalizing acc with
  | nil => simp
  | cons p t ih =>
    rw [List.foldl_cons, ih, List.filterMap_cons, needStep_critical]
    by_cases h : 1 < (p.2 : ℤ) - (counts p.1 : ℤ)
    · simp [h]
    · simp [h]

theorem foldl_needStep_moderate (counts : String → ℕ) (ps : List (String × ℕ)) (acc : Needs) :
    (ps.foldl (needStep counts) acc).moderate
      = acc.moderate ++ ps.filterMap
          (fun p => if (p.2 : ℤ) - (counts p.1 : ℤ) = 1 then some p.1 else none) := by
  induction ps generalizing acc with
  | nil => simp
  | cons p t ih =>
    rw [List.foldl_cons, ih, List.filterMap_cons, needStep_moderate]
    by_cases h : (p.2 : ℤ) - (counts p.1 : ℤ) = 1
    · simp [h]
    · simp [h]

theorem foldl_needStep_depth (counts : String → ℕ) (ps : List (String × ℕ)) (acc : Needs) :
    (ps.foldl (needStep counts) acc).depth
      = acc.depth ++ ps.filterMap
          (fun p => if (p.2 : ℤ) - (counts p.1 : ℤ) = 0 ∧ (p.1 = "RB" ∨ p.1 = "WR")
            then some p.1 else none) := by
  induction ps generalizing acc with
  | nil => simp
  | cons p t ih =>
    rw [List.foldl_cons, ih, List.filterMap_cons, needStep_depth]
    by_cases h : (p.2 : ℤ) - (counts p.1 : ℤ) = 0 ∧ (p.1 = "RB" ∨ p.1 = "WR")
    · simp [h]
    · simp [h]

theorem mem_filterMap_guard_mem {P : String × ℕ → Prop} [DecidablePred P]
    (t : List (String × ℕ)) (x : String)
    (hx : x ∈ t.filterMap (fun p => if P p then some p.1 else none)) :
    x ∈ t.map Prod.fst := by
  simp only [List.mem_filterMap] at hx
  obtain ⟨p, hp, hpx⟩ := hx
  by_cases hP : P p
  · rw [if_pos hP] at hpx
    cases hpx
    exact List.mem_map_of_mem Prod.fst hp
  · rw [if_neg hP] at hpx
    cases hpx

theorem mem_filterMap_guard (P : String × ℕ → Prop) [DecidablePred P]
    (ps : List (String × ℕ)) (pos : String) (ideal : ℕ)
    (hnd : (ps.map Prod.fst).Nodup) (hpos : (pos, ideal) ∈ ps) :
    (pos ∈ ps.filterMap (fun p => if P p then some p.1 else none)) ↔ P (pos, ideal) := by
  induction ps with
  | nil => simp at hpos
  | cons q t ih =>
    rw [List.map_cons, List.nodup_cons] at hnd
    rw [List.filterMap_cons]
    rcases List.mem_cons.mp hpos with heq | hmem
    · subst heq
      by_cases hP : P (pos, ideal)
      · simp [hP]
      · rw [if_neg hP]
        constructor
        · intro h
          exact absurd (mem_filterMap_guard_mem t pos h) hnd.1
        · intro h
          exact absurd h hP
    · have hne : ¬ pos = q.1 := by
        intro h
        exact hnd.1 (h ▸ List.mem_map_of_mem Prod.fst hmem)
      by_cases hP : P q
      · rw [if_pos hP]
        rw [List.mem_cons]
        simp [hne, ih hnd.2 hmem]
      · rw [if_neg hP]
        exact ih hnd.2 hmem

theorem mem_dedupFirstAux (l : List String) : ∀ (seen : List String) (x : String),
    (x ∈ dedupFirstAux seen l ↔ x ∈ l ∧ x ∉ seen) := by
  induction l with
  | nil =>
    intro seen x
    simp [dedupFirstAux]
  | cons a t ih =>
    intro seen x
    unfold dedupFirstAux
    by_cases ha : a ∈ seen
    · rw [if_pos ha, ih]
      constructor
      · rintro ⟨hx, hs⟩
        exact ⟨List.mem_cons_of_mem _ hx, hs⟩
      · rintro ⟨hx, hs⟩
        rcases List.mem_cons.mp hx with rfl | hx
        · exact absurd ha hs
        · exact ⟨hx, hs⟩
    · rw [if_neg ha, List.mem_cons, ih (a :: seen) x]
      constructor
      · rintro (rfl | ⟨hx, hs⟩)
        · exact ⟨List.mem_cons_self _ _, ha⟩
        · refine ⟨List.mem_cons_of_mem _ hx, fun h => hs (List.mem_cons_of_mem _ h)⟩
      · rintro ⟨hx, hs⟩
        by_cases hxa : x = a
        · exact Or.inl hxa
        · right
          refine ⟨?_, ?_⟩
          · rcases List.mem_cons.mp hx with h | h
            · exact absurd h hxa
            · exact h
          · intro h
            rcases List.mem_cons.mp h with h | h
            · exact hxa h
            · exact hs h

theorem mem_dedupFirst (l : List String) (x : String) : x ∈ dedupFirst l ↔ x ∈ l := by
  unfold dedupFirst
  rw [mem_dedupFirstAux]
  simp

theorem dictGet_map_pair {β : Type} (f : String → β) (keys : List String) (pos : String) :
    dictGet (keys.map (fun k => (k, f k))) pos
      = if pos ∈ keys then some (f pos) else none := by
  induction keys with
  | nil => simp [dictGet]
  | cons k t ih =>
    rw [List.map_cons]
    by_cases hk : k = pos
    · subst hk
      simp [dictGet]
    · simp only [dictGet, ih, List.mem_cons]
      rw [if_neg hk]
      have hk2 : ¬ pos = k := fun h => hk h.symm
      by_cases hmem : pos ∈ t
      · simp [hmem, hk2]
      · simp [hmem, hk2]

theorem position_counts_lookup (posList : List String) (pos : String) :
    (dictGet ((dedupFirst posList).map (fun k => (k, posList.count k))) pos).getD 0
      = posList.count pos := by
  rw [dictGet_map_pair]
  by_cases h : pos ∈ dedupFirst posList
  · rw [if_pos h]
    rfl
  · rw [if_neg h]
    rw [mem_dedupFirst] at h
    simp [List.count_eq_zero.mpr h]

/-- Claim C3: for every roster and every tracked position, with
`deficit = ideal_count - current_count` (current count `0` when the
roster has no players at the position), the position is critical iff
`deficit > 1`, moderate iff `deficit == 1`, depth iff `deficit == 0`
and the position is RB or WR, and is in no tier otherwise; the three
tiers are mutually exclusive per position. -/
theorem need_tiers (A : Analyzer) (uid : String) (res : RosterAnalysis)
    (pos : String) (ideal : ℕ)
    (hres : analyze_roster_needs A uid = some res)
    (hpos : (pos, ideal) ∈ ideal_roster) :
    ((pos ∈ res.needs.critical ↔
        1 < (ideal : ℤ) - ((dictGet res.position_counts pos).getD 0 : ℤ)) ∧
     (pos ∈ res.needs.moderate ↔
        (ideal : ℤ) - ((dictGet res.position_counts pos).getD 0 : ℤ) = 1) ∧
     (pos ∈ res.needs.depth ↔
        ((ideal : ℤ) - ((dictGet res.position_counts pos).getD 0 : ℤ) = 0 ∧
         (pos = "RB" ∨ pos = "WR")))) ∧
    (¬(pos ∈ res.needs.critical ∧ pos ∈ res.needs.moderate) ∧
     ¬(pos ∈ res.needs.critical ∧ pos ∈ res.needs.depth) ∧
     ¬(pos ∈ res.needs.moderate ∧ pos ∈ res.needs.depth)) := by
  have hnd : ((ideal_roster.map Prod.fst).Nodup) := by decide
  unfold analyze_roster_needs at hres
  cases hget : dictGet A.roster_by_user uid with
  | none =>
    rw [hget] at hres
    cases hres
  | some ri =>
    rw [hget] at hres
    have hres' := Option.some.inj hres
    subst hres'
    simp only [needsFor, foldl_needStep_critical, foldl_needStep_moderate,
      foldl_needStep_depth, List.nil_append, position_counts_lookup]
    have hcrit := mem_filterMap_guard
      (fun p => 1 < (p.2 : ℤ) - ((ri.players.filterMap
        (fun pid => (dictGet A.all_players pid).bind
          (fun pd => pd.position.bind
            (fun ps => if ps = "" then none else some (ps, pd))))).map Prod.fst).count p.1)
      ideal_roster pos ideal hnd hpos
    have hmod := mem_filterMap_guard
      (fun p => (p.2 : ℤ) - ((ri.players.filterMap
        (fun pid => (dictGet A.all_players pid).bind
          (fun pd => pd.position.bind
            (fun ps => if ps = "" then none else some (ps, pd))))).map Prod.fst).count p.1 = 1)
      ideal_roster pos ideal hnd hpos
    have hdep := mem_filterMap_guard
      (fun p => (p.2 : ℤ) - ((ri.players.filterMap
        (fun pid => (dictGet A.all_players pid).bind
          (fun pd => pd.position.bind
            (fun ps => if ps = "" then none else some (ps, pd))))).map Prod.fst).count p.1 = 0
        ∧ (p.1 = "RB" ∨ p.1 = "WR"))
      ideal_roster pos ideal hnd hpos
    refine ⟨⟨hcrit, hmod, hdep⟩, ?_, ?_, ?_⟩
    · rw [hcrit, hmod]
      rintro ⟨h1, h2⟩
      omega
    · rw [hcrit, hdep]
      rintro ⟨h1, h2, _⟩
      omega
    · rw [hmod, hdep]
      rintro ⟨h1, h2, _⟩
      omega

theorem need_tiers_witness :
    analyze_roster_needs
        ⟨[("u1", ⟨["p1"], [], [], [], 1, "alice"⟩)],
         [("p1", ⟨"Tom", "Brady", some "QB", some "NE", none⟩)]⟩ "u1"
      = some { needs := { critical := ["RB", "WR", "TE"],
                          moderate := ["QB", "K", "DEF"], depth := [] },
               position_counts := [("QB", 1)],
               position_players := [("QB", [{ name := "Tom Brady", team := some "NE",
                                              injury_status := none }])] } ∧
    ("QB", 2) ∈ ideal_roster ∧
    (("QB" ∈ ({ critical := ["RB", "WR", "TE"], moderate := ["QB", "K", "DEF"],
                depth := [] } : Needs).moderate) ↔
      (2 : ℤ) - ((dictGet [("QB", 1)] "QB").getD 0 : ℤ) = 1) := by
  refine ⟨by decide, by decide, ?_⟩
  exact ((need_tiers
    ⟨[("u1", ⟨["p1"], [], [], [], 1, "alice"⟩)],
     [("p1", ⟨"Tom", "Brady", some "QB", some "NE", none⟩)]⟩ "u1"
    { needs := { critical := ["RB", "WR", "TE"], moderate := ["QB", "K", "DEF"], depth := [] },
      position_counts := [("QB", 1)],
      position_players := [("QB", [{ name := "Tom Brady", team := some "NE",
                                     injury_status := none }])] }
    "QB" 2 (by decide) (by decide)).1).2.1

theorem le_fst_of_mem_enumFrom_list {α : Type} (l : List α) :
    ∀ (n : ℕ) (q : ℕ × α), q ∈ l.enumFrom n → n ≤ q.1 := by
  induction l with
  | nil =>
    intro n q hq
    simp at hq
  | cons a t ih =>
    intro n q hq
    rw [List.enumFrom_cons] at hq
    rcases List.mem_cons.mp hq with rfl | hq
    · exact le_refl n
    · exact Nat.le_of_succ_le (ih (n + 1) q hq)

theorem pairwise_fst_lt_enumFrom {α : Type} (l : List α) :
    ∀ n : ℕ, (l.enumFrom n).Pairwise (fun p q => p.1 < q.1) := by
  induction l with
  | nil =>
    intro n
    simp
  | cons a t ih =>
    intro n
    rw [List.enumFrom_cons, List.pairwise_cons]
    refine ⟨?_, ih (n + 1)⟩
    intro q hq
    exact Nat.lt_of_succ_le (le_fst_of_mem_enumFrom_list t (n + 1) q hq)

theorem pairwise_fst_lt_enum {α : Type} (l : List α) :
    (l.enum).Pairwise (fun p q => p.1 < q.1) :=
  pairwise_fst_lt_enumFrom l 0

theorem orderedInsert_lex_snd (p : ℕ × Recommendation) (s : List (ℕ × Recommendation))
    (hs : ∀ q ∈ s, p.1 < q.1) :
    (s.orderedInsert lexAfter p).map Prod.snd
      = (s.map Prod.snd).orderedInsert (descBy Recommendation.adjusted_score) p.2 := by
  induction s with
  | nil => simp
  | cons q t ih =>
    have hpq : p.1 < q.1 := hs q (List.mem_cons_self _ _)
    have hiff : lexAfter p q ↔ descBy Recommendation.adjusted_score p.2 q.2 := by
      unfold lexAfter descBy
      constructor
      · rintro (h | ⟨h, _⟩)
        · exact le_of_lt h
        · exact le_of_eq h.symm
      · intro h
        rcases lt_or_eq_of_le h with h | h
        · exact Or.inl h
        · exact Or.inr ⟨h.symm, le_of_lt hpq⟩
    by_cases hd : descBy Recommendation.adjusted_score p.2 q.2
    · simp only [List.orderedInsert]
      rw [if_pos (hiff.mpr hd), if_pos hd]
      simp
    · simp only [List.orderedInsert]
      rw [if_neg (fun h => hd (hiff.mp h)), if_neg hd]
      simp only [List.map_cons]
      rw [ih (fun r hr => hs r (List.mem_cons_of_mem _ hr))]

theorem insertionSort_lex_snd (l : List (ℕ × Recommendation))
    (hl : l.Pairwise (fun p q => p.1 < q.1)) :
    (l.insertionSort lexAfter).map Prod.snd
      = (l.map Prod.snd).insertionSort (descBy Recommendation.adjusted_score) := by
  induction l with
  | nil => simp
  | cons p t ih =>
    rw [List.map_cons]
    simp only [List.insertionSort]
    have hpt := List.pairwise_cons.mp hl
    have hmem : ∀ q ∈ t.insertionSort lexAfter, p.1 < q.1 := by
      intro q hq
      exact hpt.1 q ((List.perm_insertionSort lexAfter t).mem_iff.mp hq)
    rw [orderedInsert_lex_snd p _ hmem, ih hpt.2]

/-- Claim C4 (counterexample): with a position filter that matches no
candidate the post-filter pool is empty, so `top_n = 5` exceeds the
pool size `0`, yet the ranker does not return the (empty) pool: the
source builds `pd.DataFrame([])`, which has no `adjusted_score`
column, and `df.nlargest` raises `KeyError` — the call errors instead
of returning. -/
theorem ranker_empty_pool_counterexample :
    boostedPool ⟨[], [], []⟩
        [⟨"p1", "Ann", "WR", none, 10, 3, 4, 0, 1, 2, 4, false, none⟩] (some "QB") = [] ∧
    generate_recommendations ⟨[], [], []⟩
        [⟨"p1", "Ann", "WR", none, 10, 3, 4, 0, 1, 2, 4, false, none⟩] 5 (some "QB")
      = Except.error "KeyError: adjusted_score" ∧
    generate_recommendations ⟨[], [], []⟩
        [⟨"p1", "Ann", "WR", none, 10, 3, 4, 0, 1, 2, 4, false, none⟩] 5 (some "QB")
      ≠ Except.ok [] := by
  refine ⟨?_, ?_, ?_⟩
  · simp [boostedPool, positionFiltered]
  · simp [generate_recommendations, boostedPool, positionFiltered]
  · simp [generate_recommendations, boostedPool, positionFiltered]

/-- Claim C4 (amended): for every NON-EMPTY post-filter candidate pool
the ranker returns normally, its output is ordered by adjusted score
descending, equals the spec-level stable selection that breaks ties
between equal adjusted scores by original input order (sorting
lexicographically by score descending then input index), a `top_n` at
or beyond the pool size returns the entire pool as a permutation, and
in general the output has `min top_n pool_size` rows; an empty pool
(e.g. a position filter matching nothing) instead raises `KeyError`. -/
theorem ranker_top_n (needs : Needs) (scored_players : List ScoredPlayer)
    (top_n : ℕ) (position_filter : Option String)
    (hne : boostedPool needs scored_players position_filter ≠ []) :
    generate_recommendations needs scored_players top_n position_filter
      = Except.ok (nlargest top_n Recommendation.adjusted_score
          (boostedPool needs scored_players position_filter)) ∧
    (nlargest top_n Recommendation.adjusted_score
        (boostedPool needs scored_players position_filter)).Sorted
        (descBy Recommendation.adjusted_score) ∧
    nlargest top_n Recommendation.adjusted_score
        (boostedPool needs scored_players position_filter)
      = lexRank top_n (boostedPool needs scored_players position_filter) ∧
    ((boostedPool needs scored_players position_filter).length ≤ top_n →
      (nlargest top_n Recommendation.adjusted_score
        (boostedPool needs scored_players position_filter)).Perm
        (boostedPool needs scored_players position_filter)) ∧
    (nlargest top_n Recommendation.adjusted_score
        (boostedPool needs scored_players position_filter)).length
      = min top_n (boostedPool needs scored_players position_filter).length := by
  refine ⟨?_, ?_, ?_, ?_, ?_⟩
  · unfold generate_recommendations
    rw [if_neg (by simp [List.isEmpty_iff, hne])]
  · unfold nlargest
    exact List.Pairwise.sublist (List.take_sublist _ _) (List.sorted_insertionSort _ _)
  · unfold nlargest lexRank
    rw [insertionSort_lex_snd _ (pairwise_fst_lt_enum _), List.enum_map_snd]
  · intro hlen
    unfold nlargest
    rw [List.take_of_length_le (by rw [List.length_insertionSort]; exact hlen)]
    exact List.perm_insertionSort _ _
  · unfold nlargest
    rw [List.length_take, List.length_insertionSort]

theorem ranker_top_n_witness :
    boostedPool ⟨[], [], []⟩
        [⟨"p1", "Ann", "WR", none, 10, 3, 4, 0, 1, 2, 4, false, none⟩] none ≠ [] ∧
    (boostedPool ⟨[], [], []⟩
        [⟨"p1", "Ann", "WR", none, 10, 3, 4, 0, 1, 2, 4, false, none⟩] none).length ≤ 5 ∧
    generate_recommendations ⟨[], [], []⟩
        [⟨"p1", "Ann", "WR", none, 10, 3, 4, 0, 1, 2, 4, false, none⟩] 5 none
      = Except.ok (nlargest 5 Recommendation.adjusted_score (boostedPool ⟨[], [], []⟩
          [⟨"p1", "Ann", "WR", none, 10, 3, 4, 0, 1, 2, 4, false, none⟩] none)) ∧
    (nlargest 5 Recommendation.adjusted_score (boostedPool ⟨[], [], []⟩
        [⟨"p1", "Ann", "WR", none, 10, 3, 4, 0, 1, 2, 4, false, none⟩] none)).Perm
      (boostedPool ⟨[], [], []⟩
        [⟨"p1", "Ann", "WR", none, 10, 3, 4, 0, 1, 2, 4, false, none⟩] none) := by
  have hne : boostedPool ⟨[], [], []⟩
      [⟨"p1", "Ann", "WR", none, 10, 3, 4, 0, 1, 2, 4, false, none⟩] none ≠ [] := by
    simp [boostedPool, positionFiltered]
  have hlen : (boostedPool ⟨[], [], []⟩
      [⟨"p1", "Ann", "WR", none, 10, 3, 4, 0, 1, 2, 4, false, none⟩] none).length ≤ 5 := by
    simp [boostedPool, positionFiltered]
  have h := ranker_top_n ⟨[], [], []⟩
    [⟨"p1", "Ann", "WR", none, 10, 3, 4, 0, 1, 2, 4, false, none⟩] 5 none hne
  exact ⟨hne, hlen, h.1, h.2.2.2.1 hlen⟩

end Waiver
